import Mathlib

/-
Shallow embedding of `src/core/midi/midi_port.cpp` (class `midiPort`) from the
LMMS MIDI sequencing system.  Pure state: the fields of a `midiPort` object
that the routing/subscription logic reads and writes.  Side effects (calls to
the MIDI client/transport, to the internal event consumer, and Qt signal
emissions) are modelled as an explicit list of `PortAction` values produced by
each operation, in the order the C++ code performs them.

The companion header `midi_port.h` is not part of the sources; the few pieces
of it the `.cpp` relies on (the accessors `inputEnabled`/`outputEnabled`, the
`map` typedef for the subscription registries, the `midiEvent` field layout
and `NumKeys`) are modelled from the spec and marked as such below.
-/

namespace MidiPortModel

/-- The four port modes of `midiPort::Modes` (midi_port.h, mirrored by the
mode table in `updateMidiPortMode`). -/
inductive Modes where
  | Disabled
  | Input
  | Output
  | Duplex
deriving DecidableEq, Repr

/-- MIDI event types distinguished by midi_port.cpp; every type the routing
code never inspects is collapsed into `MidiOther` (tagged with its raw status
so distinct other types stay distinct). -/
inductive MidiEventTypes where
  | MidiNoteOn
  | MidiNoteOff
  | MidiKeyPressure
  | MidiProgramChange
  | MidiOther (raw : Int)
deriving DecidableEq, Repr

/-- Modelled from the spec: a MIDI event as used by midi_port.cpp — a type, a
channel, and the two data parameters accessed through `key()` (param 0) and
`velocity()` (param 1); `midiEvent(type, channel, param1)` leaves param 2 at
its default 0. -/
structure midiEvent where
  m_type : MidiEventTypes
  m_channel : Int
  key : Int
  velocity : Int
deriving DecidableEq, Repr

/-- Modelled from the spec: `NumKeys`, the exclusive upper bound of the valid
key range `[0, NumKeys)` used by the inbound filter. -/
def NumKeys : Int := 128

/-- The mutable fields of a `midiPort` object that midi_port.cpp reads and
writes: the derived mode, the model values (channels, controllers, fixed
velocities, output program, the two direction toggles) and the two
subscription registries.  Modelled from the spec: the registries
(`midiPort::map`, typedef in the missing header) are ordered mappings from
external-port identifier to subscribed flag, in external enumeration order,
embedded as association lists with unique keys. -/
structure PortState where
  m_mode : Modes
  m_inputChannel : Int
  m_outputChannel : Int
  m_inputController : Int
  m_outputController : Int
  m_fixedInputVelocity : Int
  m_fixedOutputVelocity : Int
  m_outputProgram : Int
  m_readable : Bool
  m_writable : Bool
  m_readablePorts : List (String × Bool)
  m_writablePorts : List (String × Bool)
deriving DecidableEq, Repr

/-- The external side effects midi_port.cpp performs, in program order:
forwarding to the internal consumer (`m_midiEventProcessor->processInEvent`),
handing an event to the transport (`m_midiClient->processOutEvent`), the
transport subscribe requests, `applyPortMode`, the three Qt change signals,
and `engine::getSong()->setModified()`. -/
inductive PortAction where
  | consumeIn (ev : midiEvent) (t : Int)
  | transportOut (ev : midiEvent) (t : Int)
  | clientSubscribeR (port : String) (subscribe : Bool)
  | clientSubscribeW (port : String) (subscribe : Bool)
  | applyPortMode
  | sigReadablePortsChanged
  | sigWritablePortsChanged
  | sigModeChanged
  | songSetModified
deriving DecidableEq, Repr

/-- Modelled from the spec: `inputEnabled()` (missing header) reflects the
input direction toggle `m_readableModel`. -/
def inputEnabled (st : PortState) : Bool := st.m_readable

/-- Modelled from the spec: `outputEnabled()` (missing header) reflects the
output direction toggle `m_writableModel`. -/
def outputEnabled (st : PortState) : Bool := st.m_writable

/-- Modelled from the spec: QMap-style insert `m_ports[_port] = _subscribe` on
the ordered registry — replace the value of an existing key in place,
otherwise append the new entry. -/
def mapInsert : List (String × Bool) → String → Bool → List (String × Bool)
  | [], k, v => [(k, v)]
  | p :: rest, k, v => if p.1 = k then (k, v) :: rest else p :: mapInsert rest k v

/-- Registry lookup: the value stored for key `k`, if present. -/
def mapValue (m : List (String × Bool)) (k : String) : Option Bool :=
  (m.find? (fun p => p.1 = k)).map Prod.snd

/-- The mode lookup table of `midiPort::updateMidiPortMode`:
`{ { Disabled, Output }, { Input, Duplex } }` indexed
`[m_readableModel.value()][m_writableModel.value()]`. -/
def modeTable (i o : Bool) : Modes :=
  match i, o with
  | false, false => Modes.Disabled
  | false, true => Modes.Output
  | true, false => Modes.Input
  | true, true => Modes.Duplex

/-- Embedding of `midiPort::updateMidiPortMode`: set the mode from the lookup table (via
`setMode`, which notifies the transport through `applyPortMode`); if input is
not enabled, call `subscribeReadablePort(key, false)` for every registry entry
currently `true` (which writes `false` into the entry and requests a transport
unsubscribe — with subscribe `false` it never touches the toggle models);
symmetrically for output; finally emit the three change signals and mark the
song modified. -/
def updateMidiPortMode (st : PortState) : PortState × List PortAction :=
  let st1 : PortState := { st with m_mode := modeTable st.m_readable st.m_writable }
  let rActs : List PortAction :=
    if st1.m_readable then []
    else (st1.m_readablePorts.filter (fun p => p.2)).map
      (fun p => PortAction.clientSubscribeR p.1 false)
  let rPorts : List (String × Bool) :=
    if st1.m_readable then st1.m_readablePorts
    else st1.m_readablePorts.map (fun p => (p.1, false))
  let wActs : List PortAction :=
    if st1.m_writable then []
    else (st1.m_writablePorts.filter (fun p => p.2)).map
      (fun p => PortAction.clientSubscribeW p.1 false)
  let wPorts : List (String × Bool) :=
    if st1.m_writable then st1.m_writablePorts
    else st1.m_writablePorts.map (fun p => (p.1, false))
  ({ st1 with m_readablePorts := rPorts, m_writablePorts := wPorts },
    PortAction.applyPortMode :: (rActs ++ wActs ++
      [PortAction.sigReadablePortsChanged, PortAction.sigWritablePortsChanged,
        PortAction.sigModeChanged, PortAction.songSetModified]))

/-- Embedding of `m_readableModel.setValue(v)`: the model stores the new value and, when it
actually changed, its `dataChanged` signal synchronously invokes the connected
slot `updateMidiPortMode` (connection made in the constructor). -/
def setReadableValue (st : PortState) (v : Bool) : PortState × List PortAction :=
  if st.m_readable = v then (st, [])
  else updateMidiPortMode { st with m_readable := v }

/-- Embedding of `m_writableModel.setValue(v)`, symmetric to `setReadableValue`. -/
def setWritableValue (st : PortState) (v : Bool) : PortState × List PortAction :=
  if st.m_writable = v then (st, [])
  else updateMidiPortMode { st with m_writable := v }

/-- Embedding of `midiPort::subscribeReadablePort(port, subscribe)`: store the flag in the
registry; if subscribing while input is not enabled, force the input toggle on
(which re-runs `updateMidiPortMode` through the model's `dataChanged` signal);
then request the physical (un)subscribe from the transport. -/
def subscribeReadablePort (st : PortState) (port : String) (s : Bool) :
    PortState × List PortAction :=
  let st1 : PortState := { st with m_readablePorts := mapInsert st.m_readablePorts port s }
  let step : PortState × List PortAction :=
    if s = true ∧ inputEnabled st1 = false then setReadableValue st1 true else (st1, [])
  (step.1, step.2 ++ [PortAction.clientSubscribeR port s])

/-- Embedding of `midiPort::subscribeWritablePort(port, subscribe)`, symmetric to
`subscribeReadablePort` for the output direction. -/
def subscribeWritablePort (st : PortState) (port : String) (s : Bool) :
    PortState × List PortAction :=
  let st1 : PortState := { st with m_writablePorts := mapInsert st.m_writablePorts port s }
  let step : PortState × List PortAction :=
    if s = true ∧ outputEnabled st1 = false then setWritableValue st1 true else (st1, [])
  (step.1, step.2 ++ [PortAction.clientSubscribeW port s])

/-- Embedding of `midiPort::processInEvent(me, time)`: drop unless input is enabled and the
channel matches (`inputChannel()-1 == me.m_channel || inputChannel() == 0`);
for note-on/note-off/key-pressure, drop keys outside `[0, NumKeys)`; copy the
event, substituting `fixedInputVelocity()` when it is non-negative and the
original velocity is positive, and forward the copy to the event consumer. -/
def processInEvent (st : PortState) (me : midiEvent) (t : Int) :
    PortState × List PortAction :=
  if inputEnabled st = true ∧
      (st.m_inputChannel - 1 = me.m_channel ∨ st.m_inputChannel = 0) then
    if (me.m_type = MidiEventTypes.MidiNoteOn ∨
        me.m_type = MidiEventTypes.MidiNoteOff ∨
        me.m_type = MidiEventTypes.MidiKeyPressure) ∧
        (me.key < 0 ∨ me.key ≥ NumKeys) then
      (st, [])
    else
      let ev : midiEvent :=
        if st.m_fixedInputVelocity ≥ 0 ∧ me.velocity > 0
        then { me with velocity := st.m_fixedInputVelocity } else me
      (st, [PortAction.consumeIn ev t])
  else (st, [])

/-- Embedding of `midiPort::processOutEvent(me, time)`: drop unless output is enabled and
`outputChannel() == me.m_channel`; copy the event, decrement a positive
channel (internal 1..16 to external 0..15), substitute
`fixedOutputVelocity()` for note-on/key-pressure copies whose original
velocity is positive, and hand the copy to the transport. -/
def processOutEvent (st : PortState) (me : midiEvent) (t : Int) :
    PortState × List PortAction :=
  if outputEnabled st = true ∧ st.m_outputChannel = me.m_channel then
    let ev1 : midiEvent :=
      if me.m_channel > 0 then { me with m_channel := me.m_channel - 1 } else me
    let ev2 : midiEvent :=
      if st.m_fixedOutputVelocity ≥ 0 ∧ me.velocity > 0 ∧
          (me.m_type = MidiEventTypes.MidiNoteOn ∨
           me.m_type = MidiEventTypes.MidiKeyPressure)
      then { ev1 with velocity := st.m_fixedOutputVelocity } else ev1
    (st, [PortAction.transportOut ev2 t])
  else (st, [])

/-- Embedding of `midiPort::updateReadablePorts`: snapshot the keys currently `true`,
clear the registry, and re-insert the transport's new identifier list in its
reported order, marking an entry `true` exactly when its key was in the
snapshot (`selected_ports.indexOf(*it) != -1`).  Emits the readable change
signal.  The transport's list is the explicit argument `l`. -/
def updateReadablePorts (st : PortState) (l : List String) :
    PortState × List PortAction :=
  let selected : List String := (st.m_readablePorts.filter (fun p => p.2)).map Prod.fst
  let m : List (String × Bool) :=
    l.foldl (fun acc k => mapInsert acc k (decide (k ∈ selected))) []
  ({ st with m_readablePorts := m }, [PortAction.sigReadablePortsChanged])

/-- Embedding of `midiPort::updateWritablePorts`, symmetric to `updateReadablePorts`. -/
def updateWritablePorts (st : PortState) (l : List String) :
    PortState × List PortAction :=
  let selected : List String := (st.m_writablePorts.filter (fun p => p.2)).map Prod.fst
  let m : List (String × Bool) :=
    l.foldl (fun acc k => mapInsert acc k (decide (k ∈ selected))) []
  ({ st with m_writablePorts := m }, [PortAction.sigWritablePortsChanged])

/-- Embedding of `midiPort::updateOutputProgram`: synthesize
`midiEvent(MidiProgramChange, outputChannel(), outputProgram()-1)` and route
it through `processOutEvent` with timestamp `midiTime(0)`. -/
def updateOutputProgram (st : PortState) : PortState × List PortAction :=
  processOutEvent st
    { m_type := MidiEventTypes.MidiProgramChange
      m_channel := st.m_outputChannel
      key := st.m_outputProgram - 1
      velocity := 0 } 0

/-- Embedding of `m_outputProgramModel.setValue(v)`: store the value and, when it actually
changed, run the connected slot `updateOutputProgram`. -/
def setOutputProgram (st : PortState) (v : Int) : PortState × List PortAction :=
  if st.m_outputProgram = v then (st, [])
  else updateOutputProgram { st with m_outputProgram := v }

/-- QString::truncate(length()-1): drop the last character. -/
def truncateLast (s : String) : String := String.mk s.data.dropLast

/-- The serialization loop of `midiPort::saveSettings` for one registry:
concatenate `key + ","` for every entry currently `true`, then cut off the
trailing comma when the result is non-empty. -/
def serializeSubscribed (m : List (String × Bool)) : String :=
  let rp : String := m.foldl (fun acc p => if p.2 then acc ++ p.1 ++ "," else acc) ""
  if rp.length > 0 then truncateLast rp else rp

/-- Value of the `inports` attribute written by `midiPort::saveSettings`: present only
when input is enabled, holding the comma-joined subscribed identifiers. -/
def saveInports (st : PortState) : Option String :=
  if inputEnabled st = true then some (serializeSubscribed st.m_readablePorts) else none

/-- Value of the `outports` attribute written by `midiPort::saveSettings`. -/
def saveOutports (st : PortState) : Option String :=
  if outputEnabled st = true then some (serializeSubscribed st.m_writablePorts) else none

/-- QString::split(',') with Qt's default keep-empty-parts semantics: the
empty string splits to `[""]`. -/
def splitCommaAux : List Char → List Char → List String
  | [], cur => [String.mk cur.reverse]
  | c :: rest, cur =>
    if c = ',' then String.mk cur.reverse :: splitCommaAux rest []
    else splitCommaAux rest (c :: cur)

/-- Split a Qt attribute string on commas, keeping empty parts. -/
def splitComma (s : String) : List String := splitCommaAux s.data []

/-- The connection-restoring part of `midiPort::loadSettings` (after the plain
model attributes are read back).  For the readable direction: split the
`inports` attribute on commas and, for every registry entry whose stored flag
differs from membership of its key in the split list, call
`subscribeReadablePort(key, desired)`; then emit the readable change signal.
The writable direction is the same EXCEPT that the source (line 269) calls
`subscribeReadablePort` — not `subscribeWritablePort` — for the mismatching
keys of `m_writablePorts`.  Modelled from the spec: the subscribe flag passed
is the desired state (the call's default argument lives in the missing
header; the spec says load sets each entry to match membership in the loaded
list). -/
def loadSettingsPorts (st : PortState) (inports outports : String) :
    PortState × List PortAction :=
  let step1 : PortState × List PortAction :=
    if inputEnabled st = true then
      let rp : List String := splitComma inports
      let folded : PortState × List PortAction :=
        st.m_readablePorts.foldl
          (fun acc p =>
            let desired : Bool := decide (p.1 ∈ rp)
            if p.2 ≠ desired then
              let r := subscribeReadablePort acc.1 p.1 desired
              (r.1, acc.2 ++ r.2)
            else acc)
          (st, [])
      (folded.1, folded.2 ++ [PortAction.sigReadablePortsChanged])
    else (st, [])
  if outputEnabled step1.1 = true then
    let wp : List String := splitComma outports
    let folded : PortState × List PortAction :=
      step1.1.m_writablePorts.foldl
        (fun acc p =>
          let desired : Bool := decide (p.1 ∈ wp)
          if p.2 ≠ desired then
            let r := subscribeReadablePort acc.1 p.1 desired
            (r.1, acc.2 ++ r.2)
          else acc)
        (step1.1, [])
    (folded.1, step1.2 ++ folded.2 ++ [PortAction.sigWritablePortsChanged])
  else step1

/-- C1: after `updateMidiPortMode` runs, the port's mode equals the lookup of
the table `{Disabled, Output}, {Input, Duplex}` indexed
`[inputEnabled][outputEnabled]`: (false,false) gives Disabled, (false,true)
gives Output, (true,false) gives Input, (true,true) gives Duplex. -/
theorem updateMidiPortMode_mode_eq_table (st : PortState) :
    (updateMidiPortMode st).1.m_mode =
      match st.m_readable, st.m_writable with
      | false, false => Modes.Disabled
      | false, true => Modes.Output
      | true, false => Modes.Input
      | true, true => Modes.Duplex := by
  cases hr : st.m_readable <;> cases hw : st.m_writable <;>
    simp [updateMidiPortMode, modeTable, hr, hw]

set_option maxHeartbeats 1600000 in
/-- C2: `processInEvent` forwards exactly one event to the internal consumer
precisely when input is enabled, the channel matches (`inputChannel == 0` is a
wildcard, otherwise `inputChannel - 1` must equal the event channel) and, for
note-on/note-off/key-pressure, the key lies in `[0, NumKeys)`; the forwarded
event is the original except that a non-negative `fixedInputVelocity` replaces
a positive velocity; otherwise nothing is forwarded. -/
theorem processInEvent_characterization (st : PortState) (e : midiEvent) (t : Int) :
    (processInEvent st e t).2 =
      if inputEnabled st = true ∧
          (st.m_inputChannel = 0 ∨ st.m_inputChannel - 1 = e.m_channel) ∧
          ((e.m_type = MidiEventTypes.MidiNoteOn ∨
            e.m_type = MidiEventTypes.MidiNoteOff ∨
            e.m_type = MidiEventTypes.MidiKeyPressure) →
            (0 ≤ e.key ∧ e.key < NumKeys))
      then [PortAction.consumeIn
              (if st.m_fixedInputVelocity ≥ 0 ∧ e.velocity > 0
               then { e with velocity := st.m_fixedInputVelocity } else e) t]
      else [] := by
  have hk : (0 ≤ e.key ∧ e.key < NumKeys) ↔ ¬(e.key < 0 ∨ e.key ≥ NumKeys) := by
    omega
  unfold processInEvent
  simp only [hk]
  split_ifs <;> first | rfl | tauto

/-- C3: `processOutEvent` hands exactly one event to the transport precisely
when output is enabled and `outputChannel` equals the event channel; the
transmitted event has its channel decremented when positive (channel 0
unchanged), its velocity replaced by `fixedOutputVelocity` exactly when that
is non-negative, the original velocity is positive and the type is note-on or
key-pressure, and all other fields unchanged; otherwise nothing is handed
over. -/
theorem processOutEvent_characterization (st : PortState) (e : midiEvent) (t : Int) :
    (processOutEvent st e t).2 =
      if outputEnabled st = true ∧ st.m_outputChannel = e.m_channel
      then [PortAction.transportOut
              { m_type := e.m_type
                m_channel := if e.m_channel > 0 then e.m_channel - 1 else e.m_channel
                key := e.key
                velocity :=
                  if st.m_fixedOutputVelocity ≥ 0 ∧ e.velocity > 0 ∧
                      (e.m_type = MidiEventTypes.MidiNoteOn ∨
                       e.m_type = MidiEventTypes.MidiKeyPressure)
                  then st.m_fixedOutputVelocity else e.velocity } t]
      else [] := by
  unfold processOutEvent
  split_ifs <;> rfl

/-- The three Qt change signals, as opposed to transport calls and the song
modified flag. -/
def isChangeSignal : PortAction → Bool
  | PortAction.sigReadablePortsChanged => true
  | PortAction.sigWritablePortsChanged => true
  | PortAction.sigModeChanged => true
  | _ => false

theorem filter_isChangeSignal_subR (l : List (String × Bool)) :
    (l.map (fun p => PortAction.clientSubscribeR p.1 false)).filter isChangeSignal = [] := by
  induction l with
  | nil => rfl
  | cons a tl ih => simp [isChangeSignal, ih]

theorem filter_isChangeSignal_subW (l : List (String × Bool)) :
    (l.map (fun p => PortAction.clientSubscribeW p.1 false)).filter isChangeSignal = [] := by
  induction l with
  | nil => rfl
  | cons a tl ih => simp [isChangeSignal, ih]

/-- C9: every run of `updateMidiPortMode` delivers the three change
notifications in the order readable-ports-changed, writable-ports-changed,
mode-changed (the remaining actions on its effect list are transport calls
and the song modified flag, not change notifications). -/
theorem updateMidiPortMode_signal_order (st : PortState) :
    ((updateMidiPortMode st).2).filter isChangeSignal =
      [PortAction.sigReadablePortsChanged, PortAction.sigWritablePortsChanged,
        PortAction.sigModeChanged] := by
  unfold updateMidiPortMode
  cases hr : st.m_readable <;> cases hw : st.m_writable <;>
    simp [hr, hw, isChangeSignal, List.filter_append,
      filter_isChangeSignal_subR, filter_isChangeSignal_subW]

/-- C10: the event routers are read-only on the port: both `processInEvent`
and `processOutEvent` leave every field of the port state unchanged, forward
at most one event, and their only effect is that forwarded event (to the
internal consumer resp. the transport). -/
theorem processEvents_frame (st : PortState) (e : midiEvent) (t : Int) :
    (processInEvent st e t).1 = st ∧ (processOutEvent st e t).1 = st ∧
    (processInEvent st e t).2.length ≤ 1 ∧ (processOutEvent st e t).2.length ≤ 1 ∧
    (∀ a ∈ (processInEvent st e t).2, ∃ ev tt, a = PortAction.consumeIn ev tt) ∧
    (∀ a ∈ (processOutEvent st e t).2, ∃ ev tt, a = PortAction.transportOut ev tt) := by
  refine ⟨?_, ?_, ?_, ?_, ?_, ?_⟩ <;>
    (simp only [processInEvent, processOutEvent]; split_ifs <;> simp)

theorem count_subR_map_filter (l : List (String × Bool)) (k : String) :
    ((l.filter (fun p => p.2)).map (fun p => PortAction.clientSubscribeR p.1 false)).count
        (PortAction.clientSubscribeR k false) =
      (l.filter (fun p => decide (p.1 = k) && p.2)).length := by
  induction l with
  | nil => rfl
  | cons a tl ih =>
    cases hv : a.2 <;> by_cases hak : a.1 = k <;>
      simp [List.filter_cons, hv, hak, List.count_cons, ih]

theorem count_subW_map_filter (l : List (String × Bool)) (k : String) :
    ((l.filter (fun p => p.2)).map (fun p => PortAction.clientSubscribeW p.1 false)).count
        (PortAction.clientSubscribeW k false) =
      (l.filter (fun p => decide (p.1 = k) && p.2)).length := by
  induction l with
  | nil => rfl
  | cons a tl ih =>
    cases hv : a.2 <;> by_cases hak : a.1 = k <;>
      simp [List.filter_cons, hv, hak, List.count_cons, ih]

theorem count_subR_in_subW_map (l : List (String × Bool)) (k : String) (s : Bool) :
    (l.map (fun p => PortAction.clientSubscribeW p.1 false)).count
        (PortAction.clientSubscribeR k s) = 0 := by
  simp [List.count_eq_zero, List.mem_map]

theorem count_subW_in_subR_map (l : List (String × Bool)) (k : String) (s : Bool) :
    (l.map (fun p => PortAction.clientSubscribeR p.1 false)).count
        (PortAction.clientSubscribeW k s) = 0 := by
  simp [List.count_eq_zero, List.mem_map]

/-- C4: when `updateMidiPortMode` runs with the input toggle off, every
`readablePorts` entry becomes `false` (each previously-`true` one through an
unsubscribe whose transport request appears exactly once per such entry — the
count of `clientSubscribeR k false` requests equals the number of entries for
`k` that were `true`); with the toggle on the registry and request count are
untouched; symmetrically for the output toggle and `writablePorts`.  Hence
after a mode update no `true` entry remains in a registry whose direction
toggle is off. -/
theorem updateMidiPortMode_unsubscribes_disabled (st : PortState) (k : String) :
    ((updateMidiPortMode st).1.m_readablePorts =
        if st.m_readable then st.m_readablePorts
        else st.m_readablePorts.map (fun p => (p.1, false))) ∧
    ((updateMidiPortMode st).2.count (PortAction.clientSubscribeR k false) =
        if st.m_readable then 0
        else (st.m_readablePorts.filter (fun p => decide (p.1 = k) && p.2)).length) ∧
    ((updateMidiPortMode st).1.m_writablePorts =
        if st.m_writable then st.m_writablePorts
        else st.m_writablePorts.map (fun p => (p.1, false))) ∧
    ((updateMidiPortMode st).2.count (PortAction.clientSubscribeW k false) =
        if st.m_writable then 0
        else (st.m_writablePorts.filter (fun p => decide (p.1 = k) && p.2)).length) := by
  refine ⟨?_, ?_, ?_, ?_⟩ <;>
    (unfold updateMidiPortMode;
     cases hr : st.m_readable <;> cases hw : st.m_writable <;>
       simp [hr, hw, List.count_append, List.count_cons,
         count_subR_map_filter, count_subW_map_filter,
         count_subR_in_subW_map, count_subW_in_subR_map])

theorem mapValue_mapInsert (m : List (String × Bool)) (k : String) (v : Bool) :
    mapValue (mapInsert m k v) k = some v := by
  induction m with
  | nil => simp [mapInsert, mapValue]
  | cons a tl ih =>
    by_cases h : a.1 = k
    · simp [mapInsert, mapValue, h]
    · simp only [mapInsert, if_neg h]
      simpa [mapValue, List.find?, h] using ih

/-- C8: the subscribe operation of either direction stores the requested flag
for the given identifier, issues exactly one matching physical
subscribe/unsubscribe request to the transport, and — since subscribing
implies enabling — leaves the direction toggle equal to its old value OR-ed
with the flag (in particular, after subscribing with `true`, the direction is
enabled). -/
theorem subscribePort_sets_entry_and_enables (st : PortState) (p : String) (s : Bool) :
    mapValue ((subscribeReadablePort st p s).1.m_readablePorts) p = some s ∧
    (subscribeReadablePort st p s).2.count (PortAction.clientSubscribeR p s) = 1 ∧
    (subscribeReadablePort st p s).1.m_readable = (st.m_readable || s) ∧
    mapValue ((subscribeWritablePort st p s).1.m_writablePorts) p = some s ∧
    (subscribeWritablePort st p s).2.count (PortAction.clientSubscribeW p s) = 1 ∧
    (subscribeWritablePort st p s).1.m_writable = (st.m_writable || s) := by
  refine ⟨?_, ?_, ?_, ?_, ?_, ?_⟩ <;>
    (simp only [subscribeReadablePort, subscribeWritablePort, inputEnabled, outputEnabled,
       setReadableValue, setWritableValue];
     cases s <;> cases hr : st.m_readable <;> cases hw : st.m_writable <;>
       simp [hr, hw, updateMidiPortMode, mapValue_mapInsert, List.count_append,
         List.count_cons, count_subR_in_subW_map, count_subW_in_subR_map])

theorem mapInsert_notMem (m : List (String × Bool)) (k : String) (v : Bool)
    (h : ∀ p ∈ m, p.1 ≠ k) : mapInsert m k v = m ++ [(k, v)] := by
  induction m with
  | nil => rfl
  | cons a tl ih =>
    have ha : a.1 ≠ k := h a (by simp)
    simp [mapInsert, ha, ih (fun p hp => h p (by simp [hp]))]

theorem foldl_mapInsert_fresh (l : List String) (f : String → Bool)
    (acc : List (String × Bool)) (hd : l.Nodup) (h : ∀ k ∈ l, ∀ p ∈ acc, p.1 ≠ k) :
    l.foldl (fun m k => mapInsert m k (f k)) acc = acc ++ l.map (fun k => (k, f k)) := by
  induction l generalizing acc with
  | nil => simp
  | cons a tl ih =>
    simp only [List.foldl_cons]
    rw [mapInsert_notMem acc a (f a) (fun p hp => h a (by simp) p hp)]
    have hfresh : ∀ k ∈ tl, ∀ p ∈ acc ++ [(a, f a)], p.1 ≠ k := by
      intro k hk p hp
      rcases List.mem_append.mp hp with hpa | hpb
      · exact h k (by simp [hk]) p hpa
      · have hne : a ≠ k := fun hak =>
          (List.nodup_cons.mp hd).1 (hak ▸ hk)
        simp only [List.mem_singleton] at hpb
        rw [hpb]
        exact hne
    rw [ih (acc ++ [(a, f a)]) (List.Nodup.of_cons hd) hfresh]
    simp

theorem mem_selected_iff (m : List (String × Bool)) (k : String) :
    k ∈ (m.filter (fun p => p.2)).map Prod.fst ↔ (k, true) ∈ m := by
  constructor
  · intro h
    rcases List.mem_map.mp h with ⟨p, hp, hpk⟩
    rcases List.mem_filter.mp hp with ⟨hpm, hpv⟩
    have : p = (k, true) := by
      cases p with
      | mk a b =>
        simp only at hpk hpv
        simp [hpk, hpv]
    exact this ▸ hpm
  · intro h
    exact List.mem_map.mpr ⟨(k, true), List.mem_filter.mpr ⟨h, rfl⟩, rfl⟩

/-- C5: refreshing a registry from a duplicate-free transport list rebuilds
it to hold exactly the identifiers of that list, in the reported order, each
marked `true` exactly when it was marked `true` in the prior registry
(identifiers absent from the new list are dropped, state included); both
directions behave the same way. -/
theorem updatePorts_reconciles (st : PortState) (l : List String) (hd : l.Nodup) :
    (updateReadablePorts st l).1.m_readablePorts =
      l.map (fun k => (k, decide ((k, true) ∈ st.m_readablePorts))) ∧
    (updateWritablePorts st l).1.m_writablePorts =
      l.map (fun k => (k, decide ((k, true) ∈ st.m_writablePorts))) := by
  constructor
  · simp only [updateReadablePorts]
    rw [foldl_mapInsert_fresh l _ [] hd (by simp)]
    simp only [List.nil_append]
    have hfun : ∀ k : String,
        decide (k ∈ (st.m_readablePorts.filter (fun p => p.2)).map Prod.fst) =
          decide ((k, true) ∈ st.m_readablePorts) := fun k =>
      decide_eq_decide.mpr (mem_selected_iff _ _)
    simp only [hfun]
  · simp only [updateWritablePorts]
    rw [foldl_mapInsert_fresh l _ [] hd (by simp)]
    simp only [List.nil_append]
    have hfun : ∀ k : String,
        decide (k ∈ (st.m_writablePorts.filter (fun p => p.2)).map Prod.fst) =
          decide ((k, true) ∈ st.m_writablePorts) := fun k =>
      decide_eq_decide.mpr (mem_selected_iff _ _)
    simp only [hfun]

/-- A port with all-default settings, used to instantiate hypotheses of the
general theorems at concrete inputs: both toggles off, omni input channel,
output channel 1, no fixed velocities, program 1, empty registries. -/
def basePort : PortState :=
  { m_mode := Modes.Disabled
    m_inputChannel := 0
    m_outputChannel := 1
    m_inputController := 0
    m_outputController := 0
    m_fixedInputVelocity := -1
    m_fixedOutputVelocity := -1
    m_outputProgram := 1
    m_readable := false
    m_writable := false
    m_readablePorts := []
    m_writablePorts := [] }

theorem updatePorts_reconciles_witness :
    (["B", "C"] : List String).Nodup ∧
    (updateReadablePorts
        { basePort with m_readablePorts := [("A", true), ("B", false)] }
        ["B", "C"]).1.m_readablePorts = [("B", false), ("C", false)] ∧
    (updateReadablePorts
        { basePort with m_readablePorts := [("A", true), ("B", true)] }
        ["B", "C"]).1.m_readablePorts = [("B", true), ("C", false)] :=
  ⟨by decide,
    ((updatePorts_reconciles
        { basePort with m_readablePorts := [("A", true), ("B", false)] }
        ["B", "C"] (by decide)).1).trans (by decide),
    ((updatePorts_reconciles
        { basePort with m_readablePorts := [("A", true), ("B", true)] }
        ["B", "C"] (by decide)).1).trans (by decide)⟩

/-- C7: changing the output program to a new value `v` immediately routes one
synthesized program-change event (key `v - 1`, velocity 0, timestamp 0) on
the configured output channel through `processOutEvent` — the same outbound
path as every other event — so the transport receives exactly one
program-change event with value `v - 1` (channel converted) precisely when
output is enabled. -/
theorem setOutputProgram_emits_program_change (st : PortState) (v : Int)
    (h : st.m_outputProgram ≠ v) :
    setOutputProgram st v =
      processOutEvent { st with m_outputProgram := v }
        { m_type := MidiEventTypes.MidiProgramChange
          m_channel := st.m_outputChannel
          key := v - 1
          velocity := 0 } 0 ∧
    (setOutputProgram st v).2 =
      (if st.m_writable = true then
        [PortAction.transportOut
          { m_type := MidiEventTypes.MidiProgramChange
            m_channel := if st.m_outputChannel > 0 then st.m_outputChannel - 1
              else st.m_outputChannel
            key := v - 1
            velocity := 0 } 0]
      else []) := by
  constructor
  · simp [setOutputProgram, h, updateOutputProgram]
  · simp only [setOutputProgram, if_neg h, updateOutputProgram, processOutEvent,
      outputEnabled]
    cases hw : st.m_writable <;> simp [hw]
    split_ifs <;> rfl

theorem setOutputProgram_emits_program_change_witness :
    ({ basePort with m_writable := true } : PortState).m_outputProgram ≠ 5 ∧
    (setOutputProgram { basePort with m_writable := true } 5).2 =
      [PortAction.transportOut
        { m_type := MidiEventTypes.MidiProgramChange
          m_channel := 0
          key := 4
          velocity := 0 } 0] :=
  ⟨by decide,
    ((setOutputProgram_emits_program_change { basePort with m_writable := true } 5
        (by decide)).2).trans (by decide)⟩

/-- A port with both directions enabled, an empty readable registry and one
known-but-unsubscribed writable port "A" — the state a saved subscription
`outports="A"` should be restored into. -/
def loadBugPort : PortState :=
  { basePort with
      m_mode := Modes.Duplex
      m_readable := true
      m_writable := true
      m_readablePorts := []
      m_writablePorts := [("A", false)] }

/-- C6 fails on the writable direction: a state whose writable registry has
"A" subscribed saves `outports = "A"`, but loading that attribute into
`loadBugPort` (same known identifier, currently unsubscribed) leaves the
writable registry unchanged and instead subscribes "A" in the READABLE
registry — the source's writable branch calls `subscribeReadablePort`
(midi_port.cpp line 269), so no `subscribeWritablePort` transport request is
ever issued and the writable subscribed set is not reproduced. -/
theorem loadSettings_outports_divergence :
    serializeSubscribed [("A", true)] = "A" ∧
    (loadSettingsPorts loadBugPort "" "A").1.m_writablePorts = [("A", false)] ∧
    (loadSettingsPorts loadBugPort "" "A").1.m_readablePorts = [("A", true)] ∧
    (loadSettingsPorts loadBugPort "" "A").2.count
      (PortAction.clientSubscribeW "A" true) = 0 ∧
    (loadSettingsPorts loadBugPort "" "A").2.count
      (PortAction.clientSubscribeR "A" true) = 1 := by
  refine ⟨rfl, rfl, rfl, rfl, rfl⟩

end MidiPortModel
